import Mathlib

/-!
Shallow embedding of the Panchayat Election System (`createElection` and its
closure methods `registerVoter`, `castVote`, `getResults`, `getWinner`).

Modelling conventions:
* The closure-private state (`candidates`, the `registeredVoterList` `Map`,
  the `candidatedVoted` object) is an explicit `ElectionState` record; each
  method takes the state and returns its result together with the state it
  leaves behind.
* JS `Map` and plain objects keyed by strings are association lists in
  insertion order; `Map.set` / `obj[k] = v` replace in place when the key is
  present and append otherwise (`setKey`).
* `voter` may be `null`/`undefined` (`Option Voter`) and a falsy `voter.id`
  is the empty string; `voter.age` is an integer.
* The `onSuccess`/`onError` callbacks are functions into an arbitrary result
  type; `castVote` returns the invoked callback's value.
* `Array.prototype.sort(cmp)` with a consistent comparator is, per the
  ECMAScript specification, the stable sorted permutation; it is embedded as
  a stable insertion sort parameterised by the integer comparator.
* Reading a property of `undefined` (the `getWinner` hazard on an empty
  candidate list) is an `Except.error`.
-/

structure Candidate where
  id : String
  name : String
  party : String
deriving DecidableEq, Repr

structure Voter where
  id : String
  name : String
  age : Int
deriving DecidableEq, Repr

/-- The record stored in `candidatedVoted` by `castVote`:
`{ voted: true, candidateId, voterId }`. -/
structure Ballot where
  voted : Bool
  candidateId : String
  voterId : String
deriving DecidableEq, Repr

/-- The payload passed to `onSuccess`: `{ voterId, candidateId }`. -/
structure VotePayload where
  voterId : String
  candidateId : String
deriving DecidableEq, Repr

/-- One entry of `getResults`' output: `{ ...candidate, votes }`. -/
structure ResultRecord where
  id : String
  name : String
  party : String
  votes : Nat
deriving DecidableEq, Repr

/-- The closure-held private state of one election instance. -/
structure ElectionState where
  candidates : List Candidate
  registeredVoterList : List (String × Voter)
  candidatedVoted : List (String × Ballot)
deriving DecidableEq, Repr

/-- `Map.has` / `Object.hasOwn` on an insertion-ordered association list. -/
def hasKey {β : Type} (l : List (String × β)) (k : String) : Bool :=
  l.any (fun p => p.1 == k)

/-- `Map.get` / property read on an insertion-ordered association list. -/
def lookupKey {β : Type} (l : List (String × β)) (k : String) : Option β :=
  (l.find? (fun p => p.1 == k)).map Prod.snd

/-- `Map.set` / `obj[k] = v`: replace in place if the key is present,
append otherwise (JS insertion-order semantics). -/
def setKey {β : Type} (l : List (String × β)) (k : String) (v : β) :
    List (String × β) :=
  if hasKey l k then l.map (fun p => if p.1 == k then (k, v) else p)
  else l ++ [(k, v)]

/-- `createElection(candidates)`: fresh state with empty
`registeredVoterList` and `candidatedVoted`. -/
def createElection (candidates : List Candidate) : ElectionState :=
  { candidates := candidates, registeredVoterList := [], candidatedVoted := [] }

/-- `registerVoter(voter)`: rejects a missing voter, a falsy id, an already
registered id, or `age < 18`; otherwise stores the voter under its id. -/
def registerVoter (s : ElectionState) (voter : Option Voter) :
    Bool × ElectionState :=
  match voter with
  | none => (false, s)
  | some v =>
    if v.id == "" || hasKey s.registeredVoterList v.id || v.age < 18 then
      (false, s)
    else
      (true, { s with registeredVoterList := setKey s.registeredVoterList v.id v })

/-- `candidatedVoted[voterId].voted`, guarded: `false` when the key is
absent (the JS code only reads it after `Object.hasOwn`). -/
def ballotVoted (l : List (String × Ballot)) (k : String) : Bool :=
  match lookupKey l k with
  | some b => b.voted
  | none => false

/-- `castVote(voterId, candidateId, onSuccess, onError)`: the three guards
in source order, then record the ballot and call `onSuccess`. -/
def castVote {ρ : Type} (s : ElectionState) (voterId candidateId : String)
    (onSuccess : VotePayload → ρ) (onError : String → ρ) : ρ × ElectionState :=
  if (s.candidates.find? (fun candid => candid.id == candidateId)).isNone then
    (onError "Wrong candidate!", s)
  else if !(hasKey s.registeredVoterList voterId) then
    (onError "Unauthorized voter!", s)
  else if hasKey s.candidatedVoted voterId && ballotVoted s.candidatedVoted voterId then
    (onError "Already voted!", s)
  else
    let updatedBallots := setKey s.candidatedVoted voterId
      { voted := true, candidateId := candidateId, voterId := voterId }
    (onSuccess { voterId := voterId, candidateId := candidateId },
     { s with candidatedVoted := updatedBallots })

/-- Stable insertion of `x` into `l` under an integer comparator: `x` is
placed before the first element `y` with `¬(comp y x < 0)`, so elements
comparing equal to `x` that were already in `l` end up after `x`. -/
def insertComp {α : Type} (comp : α → α → Int) (x : α) : List α → List α
  | [] => [x]
  | y :: ys => if comp y x < 0 then y :: insertComp comp x ys else x :: y :: ys

/-- Stable comparator sort (the ECMAScript `Array.prototype.sort` contract
for a consistent comparator), as an insertion sort. -/
def sortWithComp {α : Type} (comp : α → α → Int) : List α → List α
  | [] => []
  | x :: xs => insertComp comp x (sortWithComp comp xs)

/-- The `candidateWithVotesCount` array built inside `getResults`: one
record per original candidate, in original order, with the ballot count. -/
def candidateWithVotesCount (s : ElectionState) : List ResultRecord :=
  s.candidates.map (fun candidate =>
    { id := candidate.id, name := candidate.name, party := candidate.party,
      votes := ((s.candidatedVoted.map Prod.snd).filter
        (fun voter => voter.candidateId == candidate.id)).length })

/-- The comparator passed to `sort`: `sortFn` when supplied, otherwise
`candid2.votes - candid1.votes`. -/
def resultComp (sortFn : Option (ResultRecord → ResultRecord → Int))
    (candid1 candid2 : ResultRecord) : Int :=
  match sortFn with
  | some f => f candid1 candid2
  | none => (candid2.votes : Int) - (candid1.votes : Int)

/-- `getResults(sortFn)`: tally then sort; the method writes none of the
closure state, so it returns the state unchanged. -/
def getResults (s : ElectionState)
    (sortFn : Option (ResultRecord → ResultRecord → Int)) :
    List ResultRecord × ElectionState :=
  (sortWithComp (resultComp sortFn) (candidateWithVotesCount s), s)

/-- `getWinner()`: reads `this.getResults()[0].votes`; on an empty result
array this reads a property of `undefined`, a thrown `TypeError`. -/
def getWinner (s : ElectionState) : Except String (Option ResultRecord) :=
  match (getResults s none).1 with
  | [] => Except.error "TypeError: cannot read properties of undefined"
  | r :: _ => Except.ok (if r.votes > 0 then some r else none)

/-- The operations that can mutate a registry: one constructor per public
mutating method (the two read-only methods leave the state unchanged). -/
inductive Op where
  | register (voter : Option Voter)
  | cast (voterId candidateId : String)

/-- The state left behind by one operation (callbacks cannot affect which
state `castVote` leaves, so unit callbacks are used). -/
def applyOp (s : ElectionState) : Op → ElectionState
  | Op.register v => (registerVoter s v).2
  | Op.cast voterId candidateId =>
      (castVote s voterId candidateId (fun _ => ()) (fun _ => ())).2

/-- Run a sequence of operations from a state. -/
def runOps (s : ElectionState) : List Op → ElectionState
  | [] => s
  | op :: ops => runOps (applyOp s op) ops

/-! ### Association-list lemmas -/

theorem lookupKey_isSome_iff_hasKey {β : Type} (l : List (String × β)) (k : String) :
    (lookupKey l k).isSome = hasKey l k := by
  induction l with
  | nil => rfl
  | cons p ps ih =>
    simp only [lookupKey, hasKey, List.find?, List.any] at *
    cases h : p.1 == k <;> simp [h, ih]


theorem lookupKey_cons {β : Type} (p : String × β) (ps : List (String × β)) (k : String) :
    lookupKey (p :: ps) k = if p.1 == k then some p.2 else lookupKey ps k := by
  by_cases h : p.1 = k
  · simp [lookupKey, List.find?_cons_of_pos, h]
  · have hb : (p.1 == k) = false := by simp [h]
    simp [lookupKey, List.find?_cons_of_neg, hb]

theorem setKey_of_not_hasKey {β : Type} (l : List (String × β)) (k : String) (v : β)
    (h : hasKey l k = false) : setKey l k v = l ++ [(k, v)] := by
  simp [setKey, h]

theorem lookupKey_append_single {β : Type} (l : List (String × β)) (k k' : String)
    (v : β) (h : k' ≠ k) : lookupKey (l ++ [(k, v)]) k' = lookupKey l k' := by
  induction l with
  | nil =>
    have hb : (k == k') = false := by
      cases hkk : k == k'
      · rfl
      · exact absurd (eq_of_beq hkk).symm h
    simp [lookupKey, List.find?, hb]
  | cons p ps ih =>
    rw [List.cons_append, lookupKey_cons, lookupKey_cons]
    cases hp : p.1 == k' <;> simp [ih]

theorem lookupKey_map_replace {β : Type} (l : List (String × β)) (k k' : String)
    (v : β) (h : k' ≠ k) :
    lookupKey (l.map (fun p => if p.1 == k then (k, v) else p)) k' = lookupKey l k' := by
  induction l with
  | nil => rfl
  | cons p ps ih =>
    by_cases hp : p.1 = k
    · subst hp
      simp only [List.map_cons, beq_self_eq_true, if_true]
      rw [lookupKey_cons, lookupKey_cons]
      have hb : (p.1 == k') = false := by
        cases hkk : p.1 == k'
        · rfl
        · exact absurd (eq_of_beq hkk).symm h
      simp only [hb, Bool.false_eq_true, if_false]
      simpa using ih
    · have hb : (p.1 == k) = false := by simp [hp]
      simp only [List.map_cons, hb, Bool.false_eq_true, if_false]
      rw [lookupKey_cons, lookupKey_cons]
      cases hp' : p.1 == k'
      · simp only [Bool.false_eq_true, if_false]
        simpa using ih
      · simp

theorem lookupKey_setKey_ne {β : Type} (l : List (String × β)) (k k' : String) (v : β)
    (h : k' ≠ k) : lookupKey (setKey l k v) k' = lookupKey l k' := by
  unfold setKey
  split
  · exact lookupKey_map_replace l k k' v h
  · exact lookupKey_append_single l k k' v h

theorem hasKey_append {β : Type} (l l' : List (String × β)) (k : String) :
    hasKey (l ++ l') k = (hasKey l k || hasKey l' k) := by
  simp [hasKey]

theorem hasKey_setKey_of_hasKey {β : Type} (l : List (String × β)) (k k' : String)
    (v : β) (h : hasKey l k' = true) : hasKey (setKey l k v) k' = true := by
  unfold setKey
  split
  · simp only [hasKey, List.any_map, List.any_eq_true, Function.comp] at h ⊢
    obtain ⟨p, hp, hpk⟩ := h
    refine ⟨p, hp, ?_⟩
    by_cases hpk' : p.1 = k
    · simp only [hpk', beq_self_eq_true, if_true]
      have := eq_of_beq hpk
      simp [← hpk', this]
    · have hb : (p.1 == k) = false := by simp [hpk']
      simp [hb, hpk]
  · rw [hasKey_append, h, Bool.true_or]

/-! ### Stable-sort lemmas (default comparator `candid2.votes - candid1.votes`) -/

theorem insertComp_perm {α : Type} (comp : α → α → Int) (x : α) (l : List α) :
    (insertComp comp x l).Perm (x :: l) := by
  induction l with
  | nil => exact List.Perm.refl _
  | cons y ys ih =>
    simp only [insertComp]
    split
    · exact (ih.cons y).trans (List.Perm.swap x y ys)
    · exact List.Perm.refl _

theorem sortWithComp_perm {α : Type} (comp : α → α → Int) (l : List α) :
    (sortWithComp comp l).Perm l := by
  induction l with
  | nil => exact List.Perm.refl _
  | cons x xs ih => exact (insertComp_perm comp x _).trans (ih.cons x)

theorem sortWithComp_length {α : Type} (comp : α → α → Int) (l : List α) :
    (sortWithComp comp l).length = l.length :=
  (sortWithComp_perm comp l).length_eq

theorem insertComp_sorted (x : ResultRecord) (l : List ResultRecord)
    (hl : l.Pairwise (fun a b => b.votes ≤ a.votes)) :
    (insertComp (resultComp none) x l).Pairwise (fun a b => b.votes ≤ a.votes) := by
  induction l with
  | nil => simp [insertComp]
  | cons y ys ih =>
    rw [List.pairwise_cons] at hl
    simp only [insertComp]
    split
    · rename_i hc
      have hvx : x.votes < y.votes := by
        simp only [resultComp] at hc
        omega
      rw [List.pairwise_cons]
      refine ⟨fun z hz => ?_, ih hl.2⟩
      have hz' := (insertComp_perm (resultComp none) x ys).mem_iff.mp hz
      rcases List.mem_cons.mp hz' with rfl | hzys
      · omega
      · exact hl.1 z hzys
    · rename_i hc
      have hvx : y.votes ≤ x.votes := by
        simp only [resultComp] at hc
        omega
      rw [List.pairwise_cons]
      refine ⟨fun z hz => ?_, List.pairwise_cons.mpr ⟨hl.1, hl.2⟩⟩
      rcases List.mem_cons.mp hz with rfl | hzys
      · exact hvx
      · exact le_trans (hl.1 z hzys) hvx

theorem sortWithComp_sorted (l : List ResultRecord) :
    (sortWithComp (resultComp none) l).Pairwise (fun a b => b.votes ≤ a.votes) := by
  induction l with
  | nil => exact List.Pairwise.nil
  | cons x xs ih => exact insertComp_sorted x _ ih

theorem filter_insertComp_of_neg {α : Type} (comp : α → α → Int) (p : α → Bool)
    (x : α) (l : List α) (hx : p x = false) :
    (insertComp comp x l).filter p = l.filter p := by
  induction l with
  | nil => simp [insertComp, hx]
  | cons y ys ih =>
    simp only [insertComp]
    split
    · cases hy : p y <;> simp [List.filter_cons, hy, ih]
    · simp [List.filter_cons, hx]

theorem filter_insertComp_of_votes (x : ResultRecord) (v : Nat)
    (l : List ResultRecord) (hx : x.votes = v) :
    (insertComp (resultComp none) x l).filter (fun r => r.votes == v) =
      x :: l.filter (fun r => r.votes == v) := by
  induction l with
  | nil => simp [insertComp, List.filter_cons, hx]
  | cons y ys ih =>
    simp only [insertComp]
    split
    · rename_i hc
      have hvy : x.votes < y.votes := by
        simp only [resultComp] at hc
        omega
      have hy : (y.votes == v) = false := by
        have : y.votes ≠ v := by omega
        simp [this]
      simp only [List.filter_cons, hy, Bool.false_eq_true, if_false, ih]
    · simp [List.filter_cons, hx]

theorem filter_sortWithComp_votes (v : Nat) (l : List ResultRecord) :
    (sortWithComp (resultComp none) l).filter (fun r => r.votes == v) =
      l.filter (fun r => r.votes == v) := by
  induction l with
  | nil => rfl
  | cons x xs ih =>
    simp only [sortWithComp]
    by_cases hx : x.votes = v
    · rw [filter_insertComp_of_votes x v _ hx, ih]
      simp [List.filter_cons, hx]
    · have hb : (x.votes == v) = false := by simp [hx]
      rw [filter_insertComp_of_neg (resultComp none) (fun r => r.votes == v) x
        (sortWithComp (resultComp none) xs) hb, ih]
      simp [List.filter_cons, hb]

/-! ### State-evolution lemmas -/

theorem lookupKey_mem {β : Type} {l : List (String × β)} {k : String} {v : β}
    (h : lookupKey l k = some v) : (k, v) ∈ l := by
  unfold lookupKey at h
  cases hf : l.find? (fun p => p.1 == k) with
  | none => rw [hf] at h; cases h
  | some q =>
    rw [hf] at h
    have hq := List.mem_of_find?_eq_some hf
    have hqk := List.find?_some hf
    have hv : q.2 = v := by simpa using h
    have hk : q.1 = k := by simpa using hqk
    have : q = (k, v) := by
      cases q
      simp_all
    exact this ▸ hq

theorem castVote_snd_indep {ρ ρ' : Type} (s : ElectionState) (vid cid : String)
    (f : VotePayload → ρ) (g : String → ρ) (f' : VotePayload → ρ') (g' : String → ρ') :
    (castVote s vid cid f g).2 = (castVote s vid cid f' g').2 := by
  unfold castVote
  split
  · rfl
  · split
    · rfl
    · split <;> rfl

theorem applyOp_candidates (s : ElectionState) (op : Op) :
    (applyOp s op).candidates = s.candidates := by
  cases op with
  | register v =>
    cases v with
    | none => rfl
    | some w =>
      simp only [applyOp, registerVoter]
      split <;> rfl
  | cast vid cid =>
    simp only [applyOp, castVote]
    split
    · rfl
    · split
      · rfl
      · split <;> rfl

theorem runOps_candidates (ops : List Op) (s : ElectionState) :
    (runOps s ops).candidates = s.candidates := by
  induction ops generalizing s with
  | nil => rfl
  | cons op ops ih => exact (ih (applyOp s op)).trans (applyOp_candidates s op)

theorem applyOp_hasKey_reg (s : ElectionState) (op : Op) (k : String)
    (h : hasKey s.registeredVoterList k = true) :
    hasKey (applyOp s op).registeredVoterList k = true := by
  cases op with
  | register v =>
    cases v with
    | none => exact h
    | some w =>
      simp only [applyOp, registerVoter]
      split
      · exact h
      · exact hasKey_setKey_of_hasKey _ _ _ _ h
  | cast vid cid =>
    simp only [applyOp, castVote]
    split
    · exact h
    · split
      · exact h
      · split <;> exact h

theorem runOps_hasKey_reg (ops : List Op) (s : ElectionState) (k : String)
    (h : hasKey s.registeredVoterList k = true) :
    hasKey (runOps s ops).registeredVoterList k = true := by
  induction ops generalizing s with
  | nil => exact h
  | cons op ops ih => exact ih _ (applyOp_hasKey_reg s op k h)

theorem applyOp_ballot_preserved (s : ElectionState) (op : Op) (k : String) (b : Ballot)
    (hb : lookupKey s.candidatedVoted k = some b) (hv : b.voted = true) :
    lookupKey (applyOp s op).candidatedVoted k = some b := by
  cases op with
  | register v =>
    cases v with
    | none => exact hb
    | some w =>
      simp only [applyOp, registerVoter]
      split <;> exact hb
  | cast vid cid =>
    by_cases hk : vid = k
    · subst hk
      have hhas : hasKey s.candidatedVoted vid = true := by
        rw [← lookupKey_isSome_iff_hasKey, hb]
        rfl
      have hbv : ballotVoted s.candidatedVoted vid = true := by
        simp [ballotVoted, hb, hv]
      simp only [applyOp, castVote]
      split
      · exact hb
      · split
        · exact hb
        · rw [if_pos (by simp [hhas, hbv])]
          exact hb
    · simp only [applyOp, castVote]
      split
      · exact hb
      · split
        · exact hb
        · split
          · exact hb
          · show lookupKey (setKey s.candidatedVoted vid _) k = some b
            rw [lookupKey_setKey_ne _ _ _ _ (fun e => hk e.symm)]
            exact hb

theorem runOps_ballot_preserved (ops : List Op) (s : ElectionState) (k : String)
    (b : Ballot) (hb : lookupKey s.candidatedVoted k = some b) (hv : b.voted = true) :
    lookupKey (runOps s ops).candidatedVoted k = some b := by
  induction ops generalizing s with
  | nil => exact hb
  | cons op ops ih => exact ih _ (applyOp_ballot_preserved s op k b hb hv)

theorem castVote_already_voted {ρ : Type} (s : ElectionState) (vid cid : String)
    (b : Ballot) (f : VotePayload → ρ) (g : String → ρ)
    (hc : (s.candidates.find? (fun candid => candid.id == cid)).isSome = true)
    (hr : hasKey s.registeredVoterList vid = true)
    (hb : lookupKey s.candidatedVoted vid = some b) (hv : b.voted = true) :
    castVote s vid cid f g = (g "Already voted!", s) := by
  have hn : (s.candidates.find? (fun candid => candid.id == cid)).isNone = false := by
    cases hf : s.candidates.find? (fun candid => candid.id == cid) <;> simp_all
  have hhas : hasKey s.candidatedVoted vid = true := by
    rw [← lookupKey_isSome_iff_hasKey, hb]
    rfl
  have hbv : ballotVoted s.candidatedVoted vid = true := by
    simp [ballotVoted, hb, hv]
  simp [castVote, hn, hr, hhas, hbv]

/-! ### Concrete fixtures -/

/-- Sample candidate list (from the module's own usage example). -/
def sampleCandidates : List Candidate :=
  [{ id := "C1", name := "Sarpanch Ram", party := "Janata" },
   { id := "C2", name := "Pradhan Sita", party := "Lok" }]

/-- Registry over `sampleCandidates` with voter `V1` registered, no ballots. -/
def sampleRegistered : ElectionState :=
  (registerVoter (createElection sampleCandidates)
    (some { id := "V1", name := "Mohan", age := 25 })).2

/-- Registry over `sampleCandidates` where `V1` has voted for `C1`. -/
def sampleVoted : ElectionState :=
  (castVote sampleRegistered "V1" "C1" (fun _ => ()) (fun _ => ())).2

/-! ### Claim theorems -/

/-- C1: when the voter is registered, the candidate id is in the original
candidate set, and the voter has no recorded ballot, `castVote` records the
ballot and returns exactly `onSuccess({ voterId, candidateId })` together with
the updated state; on every failing call it returns exactly `onError` applied
to one of the three fixed reason strings with the state unchanged; and every
call returns through one of the two callbacks (the method neither throws nor
returns a plain value of its own). -/
theorem castVote_callback_contract {ρ : Type} (s : ElectionState)
    (voterId candidateId : String) (onSuccess : VotePayload → ρ)
    (onError : String → ρ) :
    (hasKey s.registeredVoterList voterId = true →
     (s.candidates.find? (fun candid => candid.id == candidateId)).isSome = true →
     lookupKey s.candidatedVoted voterId = none →
     castVote s voterId candidateId onSuccess onError =
       (onSuccess { voterId := voterId, candidateId := candidateId },
        { s with candidatedVoted := s.candidatedVoted ++
            [(voterId, { voted := true, candidateId := candidateId,
                         voterId := voterId })] })) ∧
    ((s.candidates.find? (fun candid => candid.id == candidateId)).isNone = true ∨
      hasKey s.registeredVoterList voterId = false ∨
      (∃ b, lookupKey s.candidatedVoted voterId = some b ∧ b.voted = true) →
     ∃ reason, (reason = "Wrong candidate!" ∨ reason = "Unauthorized voter!" ∨
        reason = "Already voted!") ∧
       castVote s voterId candidateId onSuccess onError = (onError reason, s)) ∧
    ((∃ payload s', castVote s voterId candidateId onSuccess onError =
        (onSuccess payload, s')) ∨
     (∃ reason, castVote s voterId candidateId onSuccess onError =
        (onError reason, s))) := by
  refine ⟨?_, ?_, ?_⟩
  · intro hr hc hl
    have hhas : hasKey s.candidatedVoted voterId = false := by
      rw [← lookupKey_isSome_iff_hasKey, hl]
      rfl
    have hn : (s.candidates.find? (fun candid => candid.id == candidateId)).isNone
        = false := by
      cases hf : s.candidates.find? (fun candid => candid.id == candidateId) <;>
        simp_all
    have hset := setKey_of_not_hasKey s.candidatedVoted voterId
      ({ voted := true, candidateId := candidateId, voterId := voterId }) hhas
    simp [castVote, hn, hr, hhas, hset]
  · intro hfail
    by_cases h1 : (s.candidates.find? (fun candid => candid.id == candidateId)).isNone
        = true
    · exact ⟨"Wrong candidate!", Or.inl rfl, by simp [castVote, h1]⟩
    · have h1' : (s.candidates.find? (fun candid => candid.id == candidateId)).isNone
          = false := by simpa using h1
      have hcsome : (s.candidates.find? (fun candid => candid.id == candidateId)).isSome
          = true := by
        cases hf : s.candidates.find? (fun candid => candid.id == candidateId) <;>
          simp_all
      by_cases h2 : hasKey s.registeredVoterList voterId = true
      · have h3 : ∃ b, lookupKey s.candidatedVoted voterId = some b ∧ b.voted = true := by
          rcases hfail with h | h | h
          · rw [h1'] at h
            cases h
          · rw [h2] at h
            cases h
          · exact h
        obtain ⟨b, hb, hv⟩ := h3
        exact ⟨"Already voted!", Or.inr (Or.inr rfl),
          castVote_already_voted s voterId candidateId b onSuccess onError hcsome h2 hb hv⟩
      · have h2' : hasKey s.registeredVoterList voterId = false := by simpa using h2
        exact ⟨"Unauthorized voter!", Or.inr (Or.inl rfl),
          by simp [castVote, h1', h2']⟩
  · unfold castVote
    split
    · exact Or.inr ⟨_, rfl⟩
    · split
      · exact Or.inr ⟨_, rfl⟩
      · split
        · exact Or.inr ⟨_, rfl⟩
        · exact Or.inl ⟨_, _, rfl⟩

/-- Witness for C1: in the sample registry, `V1` voting for `C1` returns
`onSuccess`'s result and appends the ballot. -/
theorem castVote_callback_contract_witness :
    castVote sampleRegistered "V1" "C1" (fun p => p.candidateId) (fun e => e) =
      ("C1", { sampleRegistered with candidatedVoted :=
        sampleRegistered.candidatedVoted ++
          [("V1", { voted := true, candidateId := "C1", voterId := "V1" })] }) :=
  (castVote_callback_contract sampleRegistered "V1" "C1"
    (fun p => p.candidateId) (fun e => e)).1 (by rfl) (by rfl) (by rfl)

/-- C2: the three validity checks run in the fixed source order — (1) unknown
candidate id gives `"Wrong candidate!"`, (2) otherwise an unregistered voter
gives `"Unauthorized voter!"`, (3) otherwise an existing ballot gives
`"Already voted!"` — so the first failing check alone determines the single
reason string passed to `onError`. -/
theorem castVote_validation_order {ρ : Type} (s : ElectionState)
    (voterId candidateId : String) (onSuccess : VotePayload → ρ)
    (onError : String → ρ) :
    (s.candidates.find? (fun candid => candid.id == candidateId) = none →
      castVote s voterId candidateId onSuccess onError =
        (onError "Wrong candidate!", s)) ∧
    ((s.candidates.find? (fun candid => candid.id == candidateId)).isSome = true →
      hasKey s.registeredVoterList voterId = false →
      castVote s voterId candidateId onSuccess onError =
        (onError "Unauthorized voter!", s)) ∧
    ((s.candidates.find? (fun candid => candid.id == candidateId)).isSome = true →
      hasKey s.registeredVoterList voterId = true →
      (∃ b, lookupKey s.candidatedVoted voterId = some b ∧ b.voted = true) →
      castVote s voterId candidateId onSuccess onError =
        (onError "Already voted!", s)) := by
  refine ⟨?_, ?_, ?_⟩
  · intro h
    simp [castVote, h]
  · intro hc hr
    have hn : (s.candidates.find? (fun candid => candid.id == candidateId)).isNone
        = false := by
      cases hf : s.candidates.find? (fun candid => candid.id == candidateId) <;>
        simp_all
    simp [castVote, hn, hr]
  · intro hc hr h3
    obtain ⟨b, hb, hv⟩ := h3
    exact castVote_already_voted s voterId candidateId b onSuccess onError hc hr hb hv

/-- Witness for C2: in the sample registry the unknown candidate id `BAD`
triggers the first check. -/
theorem castVote_validation_order_witness :
    castVote sampleRegistered "V1" "BAD" (fun _ => "ok") (fun e => e) =
      ("Wrong candidate!", sampleRegistered) :=
  (castVote_validation_order sampleRegistered "V1" "BAD"
    (fun _ => "ok") (fun e => e)).1 (by rfl)

/-- C3 counterexample: with voter `V9` unregistered and candidate id `BAD` not
in the candidate set, `castVote` passes `"Wrong candidate!"` — not
`"Unauthorized voter!"` — to `onError`, refuting the claim as stated. -/
theorem castVote_unregistered_reason_cex :
    hasKey (createElection sampleCandidates).registeredVoterList "V9" = false ∧
    (castVote (createElection sampleCandidates) "V9" "BAD"
      (fun _ => "ok") (fun e => e)).1 = "Wrong candidate!" ∧
    ("Wrong candidate!" : String) ≠ "Unauthorized voter!" :=
  ⟨rfl, rfl, by decide⟩

/-- C3 (amended): for every registry state and every voter id not present in
`registeredVoters`, `castVote` with a candidate id that IS in the original
candidate set invokes `onError("Unauthorized voter!")` and returns its result
with the state unchanged. -/
theorem castVote_unregistered_valid_candidate {ρ : Type} (s : ElectionState)
    (voterId candidateId : String) (onSuccess : VotePayload → ρ)
    (onError : String → ρ)
    (hc : (s.candidates.find? (fun candid => candid.id == candidateId)).isSome = true)
    (hr : hasKey s.registeredVoterList voterId = false) :
    castVote s voterId candidateId onSuccess onError =
      (onError "Unauthorized voter!", s) := by
  have hn : (s.candidates.find? (fun candid => candid.id == candidateId)).isNone
      = false := by
    cases hf : s.candidates.find? (fun candid => candid.id == candidateId) <;>
      simp_all
  simp [castVote, hn, hr]

/-- Witness for the amended C3: unregistered `V9` with the valid candidate
`C1`. -/
theorem castVote_unregistered_valid_candidate_witness :
    castVote (createElection sampleCandidates) "V9" "C1"
      (fun _ => "ok") (fun e => e) =
      ("Unauthorized voter!", createElection sampleCandidates) :=
  castVote_unregistered_valid_candidate (createElection sampleCandidates) "V9" "C1"
    (fun _ => "ok") (fun e => e) (by rfl) (by rfl)

/-- C4: `registerVoter` returns `false` and leaves the whole state unchanged
when the voter is missing, has a falsy id, is already registered, or has
`age < 18`; otherwise it appends the voter keyed by its id to
`registeredVoterList` and returns `true`. -/
theorem registerVoter_contract (s : ElectionState) (v : Voter) :
    registerVoter s none = (false, s) ∧
    (v.id = "" → registerVoter s (some v) = (false, s)) ∧
    (hasKey s.registeredVoterList v.id = true →
      registerVoter s (some v) = (false, s)) ∧
    (v.age < 18 → registerVoter s (some v) = (false, s)) ∧
    (v.id ≠ "" → hasKey s.registeredVoterList v.id = false → ¬v.age < 18 →
      registerVoter s (some v) =
        (true, { s with registeredVoterList :=
          s.registeredVoterList ++ [(v.id, v)] })) := by
  refine ⟨rfl, ?_, ?_, ?_, ?_⟩
  · intro h
    simp [registerVoter, h]
  · intro h
    simp [registerVoter, h]
  · intro h
    simp [registerVoter, h]
  · intro hid hreg hage
    have hid' : (v.id == "") = false := by simp [hid]
    have hset := setKey_of_not_hasKey s.registeredVoterList v.id v hreg
    simp [registerVoter, hid', hreg, hage, hset]

/-- Witness for C4: registering `V1` in a fresh registry succeeds, and
registering an underage voter fails. -/
theorem registerVoter_contract_witness :
    registerVoter (createElection sampleCandidates)
      (some { id := "V1", name := "Mohan", age := 25 }) =
      (true, { createElection sampleCandidates with
        registeredVoterList := [("V1", { id := "V1", name := "Mohan", age := 25 })] }) ∧
    registerVoter (createElection sampleCandidates)
      (some { id := "V2", name := "Kid", age := 17 }) =
      (false, createElection sampleCandidates) := by
  constructor
  · have h := (registerVoter_contract (createElection sampleCandidates)
      ({ id := "V1", name := "Mohan", age := 25 })).2.2.2.2 (by decide) (by rfl) (by decide)
    simpa using h
  · exact (registerVoter_contract (createElection sampleCandidates)
      ({ id := "V2", name := "Kid", age := 17 })).2.2.2.1 (by decide)

/-- C5 counterexample: after `V1` has voted for `C1`, a later `castVote` for
`V1` with the invalid candidate id `BAD` invokes `onError` with
`"Wrong candidate!"`, not `"Already voted!"`, refuting the claim that every
later `castVote` with that voter id reports `"Already voted!"`. -/
theorem recorded_ballot_second_vote_cex :
    lookupKey sampleVoted.candidatedVoted "V1" =
      some { voted := true, candidateId := "C1", voterId := "V1" } ∧
    (castVote sampleVoted "V1" "BAD" (fun _ => "ok") (fun e => e)).1 =
      "Wrong candidate!" ∧
    ("Wrong candidate!" : String) ≠ "Already voted!" :=
  ⟨rfl, rfl, by decide⟩

/-- C5 (amended): once a ballot is recorded for a registered voter, no later
sequence of operations overwrites or removes it, and every later `castVote`
with the same voter id and a candidate id that is in the candidate set invokes
`onError("Already voted!")` and leaves the state unchanged. -/
theorem recorded_ballot_final {ρ : Type} (s : ElectionState) (voterId : String)
    (b : Ballot) (hb : lookupKey s.candidatedVoted voterId = some b)
    (hv : b.voted = true) (hr : hasKey s.registeredVoterList voterId = true) :
    ∀ ops : List Op,
      lookupKey (runOps s ops).candidatedVoted voterId = some b ∧
      ∀ (candidateId : String) (onSuccess : VotePayload → ρ)
        (onError : String → ρ),
        ((runOps s ops).candidates.find?
          (fun candid => candid.id == candidateId)).isSome = true →
        castVote (runOps s ops) voterId candidateId onSuccess onError =
          (onError "Already voted!", runOps s ops) := by
  intro ops
  have hb' := runOps_ballot_preserved ops s voterId b hb hv
  have hr' := runOps_hasKey_reg ops s voterId hr
  refine ⟨hb', ?_⟩
  intro candidateId onSuccess onError hc
  exact castVote_already_voted _ voterId candidateId b onSuccess onError hc hr' hb' hv

/-- Witness for the amended C5: `V1`'s ballot survives a later registration
and a second vote for the valid candidate `C2` reports `"Already voted!"`. -/
theorem recorded_ballot_final_witness :
    lookupKey (runOps sampleVoted
      [Op.register (some { id := "V2", name := "Ravi", age := 30 })]).candidatedVoted
      "V1" = some { voted := true, candidateId := "C1", voterId := "V1" } ∧
    castVote (runOps sampleVoted
      [Op.register (some { id := "V2", name := "Ravi", age := 30 })]) "V1" "C2"
      (fun _ => "ok") (fun e => e) =
      ("Already voted!", runOps sampleVoted
        [Op.register (some { id := "V2", name := "Ravi", age := 30 })]) := by
  have h := recorded_ballot_final (ρ := String) sampleVoted "V1"
    ({ voted := true, candidateId := "C1", voterId := "V1" }) (by rfl) (by rfl) (by rfl)
    [Op.register (some { id := "V2", name := "Ravi", age := 30 })]
  exact ⟨h.1, h.2 "C2" (fun _ => "ok") (fun e => e) (by rfl)⟩

theorem applyOp_ballots_inv (s : ElectionState) (op : Op)
    (h : ∀ p ∈ s.candidatedVoted,
      hasKey s.registeredVoterList p.1 = true ∧
      (s.candidates.find? (fun candid => candid.id == p.2.candidateId)).isSome = true ∧
      p.2.voted = true) :
    ∀ p ∈ (applyOp s op).candidatedVoted,
      hasKey (applyOp s op).registeredVoterList p.1 = true ∧
      ((applyOp s op).candidates.find?
        (fun candid => candid.id == p.2.candidateId)).isSome = true ∧
      p.2.voted = true := by
  cases op with
  | register v =>
    cases v with
    | none => exact h
    | some w =>
      simp only [applyOp, registerVoter]
      split
      · exact h
      · intro p hp
        exact ⟨hasKey_setKey_of_hasKey _ _ _ _ (h p hp).1, (h p hp).2⟩
  | cast vid cid =>
    simp only [applyOp, castVote]
    split
    · exact h
    · rename_i hn1
      split
      · exact h
      · rename_i hn2
        split
        · exact h
        · rename_i hn3
          have hfound : (s.candidates.find?
              (fun candid => candid.id == cid)).isSome = true := by
            cases hf : s.candidates.find? (fun candid => candid.id == cid) <;>
              simp_all
          have hreg : hasKey s.registeredVoterList vid = true := by
            cases hk : hasKey s.registeredVoterList vid <;> simp_all
          have hnob : hasKey s.candidatedVoted vid = false := by
            cases hk : hasKey s.candidatedVoted vid
            · rfl
            · exfalso
              have hsome : (lookupKey s.candidatedVoted vid).isSome = true := by
                rw [lookupKey_isSome_iff_hasKey, hk]
              cases hl : lookupKey s.candidatedVoted vid with
              | none => rw [hl] at hsome; cases hsome
              | some b =>
                have hmem := lookupKey_mem hl
                have hvz : b.voted = true := (h _ hmem).2.2
                have hbv : ballotVoted s.candidatedVoted vid = true := by
                  simp [ballotVoted, hl, hvz]
                exact hn3 (by rw [hk, hbv]; rfl)
          have hset := setKey_of_not_hasKey s.candidatedVoted vid
            ({ voted := true, candidateId := cid, voterId := vid }) hnob
          intro p hp
          rw [hset] at hp
          rcases List.mem_append.mp hp with hold | hnew
          · exact ⟨(h p hold).1, (h p hold).2⟩
          · have : p = (vid, { voted := true, candidateId := cid, voterId := vid }) := by
              simpa using hnew
            subst this
            exact ⟨hreg, hfound, rfl⟩

theorem runOps_ballots_inv (ops : List Op) (s : ElectionState)
    (h : ∀ p ∈ s.candidatedVoted,
      hasKey s.registeredVoterList p.1 = true ∧
      (s.candidates.find? (fun candid => candid.id == p.2.candidateId)).isSome = true ∧
      p.2.voted = true) :
    ∀ p ∈ (runOps s ops).candidatedVoted,
      hasKey (runOps s ops).registeredVoterList p.1 = true ∧
      ((runOps s ops).candidates.find?
        (fun candid => candid.id == p.2.candidateId)).isSome = true ∧
      p.2.voted = true := by
  induction ops generalizing s with
  | nil => exact h
  | cons op ops ih => exact ih _ (applyOp_ballots_inv s op h)

/-- C6: in every registry state reachable from construction by any sequence of
`registerVoter` and `castVote` operations, every voter id with an entry in
`candidatedVoted` is a key of `registeredVoterList`, and every recorded
ballot's candidate id is the id of a candidate in the original candidate
set. -/
theorem reachable_ballot_invariant (cs : List Candidate) (ops : List Op) :
    ∀ p ∈ (runOps (createElection cs) ops).candidatedVoted,
      hasKey (runOps (createElection cs) ops).registeredVoterList p.1 = true ∧
      (cs.find? (fun candid => candid.id == p.2.candidateId)).isSome = true := by
  have h := runOps_ballots_inv ops (createElection cs) (by intro p hp; cases hp)
  intro p hp
  have hinv := h p hp
  refine ⟨hinv.1, ?_⟩
  have hc : (runOps (createElection cs) ops).candidates = cs := runOps_candidates _ _
  rw [← hc]
  exact hinv.2.1

/-- Witness for C6 on the reachable state register `V1` then vote `C1`. -/
theorem reachable_ballot_invariant_witness :
    hasKey (runOps (createElection sampleCandidates)
      [Op.register (some { id := "V1", name := "Mohan", age := 25 }),
       Op.cast "V1" "C1"]).registeredVoterList "V1" = true ∧
    (sampleCandidates.find? (fun candid => candid.id == "C1")).isSome = true := by
  have h := reachable_ballot_invariant sampleCandidates
    [Op.register (some { id := "V1", name := "Mohan", age := 25 }),
     Op.cast "V1" "C1"]
    ("V1", { voted := true, candidateId := "C1", voterId := "V1" }) (by decide)
  exact h

/-- C7: `getResults()` with no comparator returns a permutation of the
per-candidate tally `candidateWithVotesCount` (one record per original
candidate, in original order, whose `votes` is the count of ballots for that
candidate), ordered by votes descending; and for every vote count the records
with that count keep their original candidate-list order (the default sort is
stable with respect to construction order). -/
theorem getResults_default_sorted_stable (s : ElectionState) :
    ((getResults s none).1).Pairwise (fun a b => b.votes ≤ a.votes) ∧
    ((getResults s none).1).Perm (candidateWithVotesCount s) ∧
    ∀ v : Nat, ((getResults s none).1).filter (fun r => r.votes == v) =
      (candidateWithVotesCount s).filter (fun r => r.votes == v) :=
  ⟨sortWithComp_sorted _, sortWithComp_perm _ _,
   fun v => filter_sortWithComp_votes v _⟩

/-- C8: with a non-empty candidate list, `getWinner()` returns the first
element of the default `getResults()` exactly when that element's vote count
is positive and `null` when it is zero; in particular with no ballots cast it
returns `null`. -/
theorem getWinner_head_of_results (s : ElectionState) (h : s.candidates ≠ []) :
    (∃ r rest, (getResults s none).1 = r :: rest ∧
      getWinner s = Except.ok (if 0 < r.votes then some r else none)) ∧
    (s.candidatedVoted = [] → getWinner s = Except.ok none) := by
  have hlen : (getResults s none).1.length = s.candidates.length := by
    simp [getResults, sortWithComp_length, candidateWithVotesCount]
  obtain ⟨r, rest, hr⟩ : ∃ r rest, (getResults s none).1 = r :: rest := by
    cases hres : (getResults s none).1 with
    | nil =>
      rw [hres] at hlen
      exact absurd (List.length_eq_zero.mp hlen.symm) h
    | cons a l => exact ⟨a, l, rfl⟩
  refine ⟨⟨r, rest, hr, by simp [getWinner, hr]⟩, ?_⟩
  intro hb
  have hrmem : r ∈ candidateWithVotesCount s := by
    have : r ∈ (getResults s none).1 := by
      rw [hr]
      exact List.mem_cons_self r rest
    exact (sortWithComp_perm _ _).subset this
  obtain ⟨c, hc, hrc⟩ := List.mem_map.mp hrmem
  have hv : r.votes = 0 := by
    rw [← hrc]
    simp [hb]
  simp [getWinner, hr, hv]

/-- Witness for C8: a fresh registry over the sample candidates has no votes
and `getWinner` returns `null`. -/
theorem getWinner_head_of_results_witness :
    getWinner (createElection sampleCandidates) = Except.ok none :=
  (getWinner_head_of_results (createElection sampleCandidates) (by decide)).2 (by rfl)

/-- C9: `getResults` — with or without a comparator — leaves the stored state
(the candidate list, `registeredVoterList` and `candidatedVoted`) unchanged,
so repeated calls return the same value and affect no later operation. -/
theorem getResults_pure (s : ElectionState)
    (sortFn : Option (ResultRecord → ResultRecord → Int)) :
    (getResults s sortFn).2 = s ∧
    (getResults (getResults s sortFn).2 sortFn).1 = (getResults s sortFn).1 :=
  ⟨rfl, rfl⟩

/-- C10: `getWinner`'s undefined property access — its error branch, reading
`.votes` of the missing first ranked entry — is reachable exactly when the
original candidate list is empty; in that case `getWinner` returns neither
`null` nor a candidate record. -/
theorem getWinner_empty_candidates (s : ElectionState) :
    getWinner s = Except.error "TypeError: cannot read properties of undefined" ↔
      s.candidates = [] := by
  have hlen : (getResults s none).1.length = s.candidates.length := by
    simp [getResults, sortWithComp_length, candidateWithVotesCount]
  constructor
  · intro h
    cases hres : (getResults s none).1 with
    | nil =>
      rw [hres] at hlen
      exact List.length_eq_zero.mp hlen.symm
    | cons r rest =>
      exfalso
      simp [getWinner, hres] at h
  · intro h
    have hemp : (getResults s none).1 = [] := by
      rw [← List.length_eq_zero, hlen, h]
      rfl
    simp [getWinner, hemp]
